import Mathlib

/-
Verification of the order-book analytics / market-maker detection engine
(backend/market_maker_detector.py) against its specification.

Embedding conventions:
- JSON float prices/sizes are modelled as exact rationals; the decimal
  literals in the claims are exactly representable, and all comparisons in
  the source are order comparisons that rationals reproduce.
- Python dicts are modelled as association lists with insertion-order
  semantics: updating an existing key keeps its position and replaces its
  value; a new key is appended (dinsert below).
- numpy std enters the source only through the comparison std < 5; since
  std = sqrt(variance) and both sides are nonnegative, the embedding keeps
  the variance and compares it against 25.
- Rational division by zero yields 0 in Lean; the source never divides by
  zero on the inputs any theorem below touches (guards are modelled
  explicitly where the source has them).
-/

namespace MarketAnalytics

/-- One order-book level: (price, size), as parsed from a JSON pair. -/
structure Level where
  price : ℚ
  size : ℚ
  deriving DecidableEq, Repr

/-- One order-book snapshot row: timestamp plus bid and ask level lists
(bids best-first descending, asks best-first ascending, as stored). -/
structure Snapshot where
  ts : ℚ
  bids : List Level
  asks : List Level
  deriving DecidableEq, Repr

/-- Side tag used in emitted pattern events. -/
inductive Side where
  | bid
  | ask
  deriving DecidableEq, Repr

/-- round_number_orders entry: side, price, volume. -/
structure RoundEvent where
  side : Side
  price : ℚ
  volume : ℚ
  deriving DecidableEq, Repr

/-- symmetric_orders entry: volume, bid_price, ask_price, spread. -/
structure SymEvent where
  volume : ℚ
  bid_price : ℚ
  ask_price : ℚ
  spread : ℚ
  deriving DecidableEq, Repr

/-- order_walls entry: side, price, volume, and the source's volume-ratio
field (volume divided by the top-10 average volume). -/
structure WallEvent where
  side : Side
  price : ℚ
  volume : ℚ
  sizeOverAvg : ℚ
  deriving DecidableEq, Repr

/-- rapid_changes entry: price, volume, duration_seconds. -/
structure ChangeEvent where
  price : ℚ
  volume : ℚ
  duration_seconds : ℚ
  deriving DecidableEq, Repr

/-- Payload stand-in for the spoofing_candidates and persistent_levels
lists: the source initializes these lists but no code path ever defines or
appends a record shape for them, so a generic key-value record models a
would-be entry. -/
abbrev DictEvent := List (String × ℚ)

/-- Python-dict insert on an association list: an existing key keeps its
position and gets the new value; a new key is appended at the end. -/
def dinsert (k v : ℚ) : List (ℚ × ℚ) → List (ℚ × ℚ)
  | [] => [(k, v)]
  | p :: rest => if p.1 = k then (k, v) :: rest else p :: dinsert k v rest

/-- Python-dict lookup on the association list. -/
def lookupD (k : ℚ) (d : List (ℚ × ℚ)) : Option ℚ :=
  (d.find? fun p => p.1 == k).map Prod.snd

/-- price % 10 == 0 or price % 100 == 0: the price is an integer multiple
of 10 (respectively 100). -/
def isRoundPrice (p : ℚ) : Bool := (p / 10).den == 1 || (p / 100).den == 1

/-- np.mean of a rational list (sum divided by length). -/
def avgOf (l : List ℚ) : ℚ := l.sum / l.length

/-- Population variance, i.e. the square of np.std. -/
def varOf (l : List ℚ) : ℚ := ((l.map fun x => (x - avgOf l) ^ 2).sum) / l.length

/-- Result lists of MarketMakerDetector._analyze_single_snapshot. -/
structure SnapshotAnalysis where
  round_number_orders : List RoundEvent
  symmetric_orders : List SymEvent
  order_walls : List WallEvent
  spoofing_candidates : List DictEvent
  persistent_levels : List DictEvent
  deriving DecidableEq, Repr

/-- Round-number scan of one side's top-20 levels. -/
def round_orders_side (s : Side) (levels : List Level) : List RoundEvent :=
  ((levels.take 20).filter fun l => isRoundPrice l.price).map fun l =>
    { side := s, price := l.price, volume := l.size }

/-- The size-to-price dict built from a side's top-20 levels
(bid_volumes / ask_volumes in the source). -/
def buildVolDict (levels : List Level) : List (ℚ × ℚ) :=
  (levels.take 20).foldl (fun d l => dinsert l.size l.price d) []

/-- Symmetric-order detection: iterate the bid dict in insertion order and
emit an event for every volume key also present in the ask dict. -/
def symmetric_orders_of (bids asks : List Level) : List SymEvent :=
  let ad := buildVolDict asks
  (buildVolDict bids).filterMap fun p =>
    match lookupD p.1 ad with
    | some ap => some { volume := p.1, bid_price := p.2, ask_price := ap, spread := ap - p.2 }
    | none => none

/-- The top-10 bid plus top-10 ask volumes averaged for the wall test. -/
def top10Vols (bids asks : List Level) : List ℚ :=
  (bids.take 10).map Level.size ++ (asks.take 10).map Level.size

/-- Wall scan of one side's top-20 levels against 5x the average volume. -/
def walls_side (s : Side) (avg : ℚ) (levels : List Level) : List WallEvent :=
  ((levels.take 20).filter fun l => avg * 5 < l.size).map fun l =>
    { side := s, price := l.price, volume := l.size, sizeOverAvg := l.size / avg }

/-- Order-wall detection over both sides. -/
def order_walls_of (bids asks : List Level) : List WallEvent :=
  let avg := avgOf (top10Vols bids asks)
  walls_side Side.bid avg bids ++ walls_side Side.ask avg asks

/-- MarketMakerDetector._analyze_single_snapshot. -/
def analyze_single_snapshot (bids asks : List Level) : SnapshotAnalysis :=
  { round_number_orders := round_orders_side Side.bid bids ++ round_orders_side Side.ask asks
    symmetric_orders := symmetric_orders_of bids asks
    order_walls := order_walls_of bids asks
    spoofing_candidates := []
    persistent_levels := [] }

/-- The price-to-size dict over a side's top-20 levels used by the rapid
change detector. -/
def priceDict (levels : List Level) : List (ℚ × ℚ) :=
  (levels.take 20).foldl (fun d l => dinsert l.price l.size d) []

/-- MarketMakerDetector._detect_rapid_changes: bid prices present (with
volume above 1) in the previous snapshot but absent from the current one. -/
def detect_rapid_changes (cur prev : Snapshot) : List ChangeEvent :=
  let td := cur.ts - prev.ts
  if 0 < td then
    let d1 := priceDict cur.bids
    let d2 := priceDict prev.bids
    d2.filterMap fun p =>
      if lookupD p.1 d1 = none ∧ 1 < p.2 then
        some { price := p.1, volume := p.2, duration_seconds := td }
      else none
  else []

/-- The six aggregated event lists of analyze_order_patterns. -/
structure PatternLists where
  round_number_orders : List RoundEvent
  symmetric_orders : List SymEvent
  order_walls : List WallEvent
  spoofing_candidates : List DictEvent
  persistent_levels : List DictEvent
  rapid_changes : List ChangeEvent
  deriving DecidableEq, Repr

/-- The initial analysis dict with all lists empty. -/
def emptyLists : PatternLists := ⟨[], [], [], [], [], []⟩

/-- One iteration of the snapshot-pair loop of analyze_order_patterns:
extend every per-snapshot list and the rapid-change list. -/
def stepPair (acc : PatternLists) (cp : Snapshot × Snapshot) : PatternLists :=
  let s := analyze_single_snapshot cp.1.bids cp.1.asks
  { round_number_orders := acc.round_number_orders ++ s.round_number_orders
    symmetric_orders := acc.symmetric_orders ++ s.symmetric_orders
    order_walls := acc.order_walls ++ s.order_walls
    spoofing_candidates := acc.spoofing_candidates ++ s.spoofing_candidates
    persistent_levels := acc.persistent_levels ++ s.persistent_levels
    rapid_changes := acc.rapid_changes ++ detect_rapid_changes cp.1 cp.2 }

/-- MarketMakerDetector._calculate_mm_score: sequential additive score,
capped at 100 by min. -/
def calculate_mm_score (a : PatternLists) : ℕ :=
  let score0 := 0
  let score1 := if 5 < a.round_number_orders.length then score0 + 20 else score0
  let score2 := if 3 < a.symmetric_orders.length then score1 + 30 else score1
  let score3 := if 0 < a.order_walls.length then score2 + 15 else score2
  let score4 := if 10 < a.rapid_changes.length then score3 + 20 else score3
  let score5 := if 5 < a.persistent_levels.length then score4 + 15 else score4
  min score5 100

/-- Result of analyze_order_patterns: the event lists plus the score. -/
structure PatternReport where
  lists : PatternLists
  mm_probability_score : ℕ
  deriving DecidableEq, Repr

/-- MarketMakerDetector.analyze_order_patterns on the fetched,
time-descending snapshot list: iterate consecutive (current, previous)
pairs, aggregate, then score. -/
def analyze_order_patterns (snaps : List Snapshot) : PatternReport :=
  let lists := (snaps.zip snaps.tail).foldl stepPair emptyLists
  { lists := lists, mm_probability_score := calculate_mm_score lists }

/-- One trade row: timestamp, price, quantity, taker side string. -/
structure Trade where
  ts : ℚ
  price : ℚ
  quantity : ℚ
  side : String
  deriving DecidableEq, Repr

/-- ping_pong_trades entry. -/
structure PingEvent where
  ts : ℚ
  avg_buy_price : ℚ
  avg_sell_price : ℚ
  trade_count : ℕ
  deriving DecidableEq, Repr

/-- size_patterns entry (frequency kept as a rational count). -/
structure SizePattern where
  size : ℚ
  frequency : ℚ
  percentage : ℚ
  deriving DecidableEq, Repr

/-- Result of OrderFlowAnalyzer.analyze_trade_patterns (the two populated
lists; time_patterns and price_improvement are never appended to). -/
structure TradeFlowReport where
  ping_pong_trades : List PingEvent
  size_patterns : List SizePattern
  deriving DecidableEq, Repr

/-- The buy trades of a window. -/
def buysOf (w : List Trade) : List Trade := w.filter fun t => t.side == "buy"

/-- The sell trades of a window. -/
def sellsOf (w : List Trade) : List Trade := w.filter fun t => t.side == "sell"

/-- The ping-pong test the source applies to one 10-trade window: more
than 3 buys and more than 3 sells whose average prices differ by less than
0.1 percent of the average buy price. -/
def pingWindow (w : List Trade) : Option PingEvent :=
  let buys := buysOf w
  let sells := sellsOf w
  if 3 < buys.length ∧ 3 < sells.length then
    let abp := avgOf (buys.map Trade.price)
    let asp := avgOf (sells.map Trade.price)
    if |abp - asp| / abp < 1 / 1000 then
      some { ts := (w.headD ⟨0, 0, 0, ""⟩).ts, avg_buy_price := abp,
             avg_sell_price := asp, trade_count := w.length }
    else none
  else none

/-- The ping-pong loop of the source: for i in range(len(trades) - 10),
test the window trades[i:i+10].  Note natural subtraction mirrors the
empty Python range when fewer than 11 trades are supplied. -/
def ping_pong_of (trades : List Trade) : List PingEvent :=
  (List.range (trades.length - 10)).filterMap fun i =>
    pingWindow ((trades.drop i).take 10)

/-- round(size, 4) of the source, as rational quantization to 4 decimal
places (Python rounds exact ties to even; no input below sits on a tie). -/
def round4 (x : ℚ) : ℚ := ((round (x * 10000) : ℤ) : ℚ) / 10000

/-- The size_counts dict: quantized size mapped to occurrence count. -/
def countsOf (sizes : List ℚ) : List (ℚ × ℚ) :=
  sizes.foldl (fun d s =>
    let r := round4 s
    match lookupD r d with
    | some c => dinsert r (c + 1) d
    | none => dinsert r 1 d) []

/-- The size-clustering loop: any quantized size seen more than 5 times. -/
def size_patterns_of (trades : List Trade) : List SizePattern :=
  (countsOf (trades.map Trade.quantity)).filterMap fun p =>
    if 5 < p.2 then
      some { size := p.1, frequency := p.2, percentage := p.2 / trades.length * 100 }
    else none

/-- OrderFlowAnalyzer.analyze_trade_patterns. -/
def analyze_trade_patterns (trades : List Trade) : TradeFlowReport :=
  { ping_pong_trades := ping_pong_of trades
    size_patterns := size_patterns_of trades }

/-- Best bid price of a snapshot (first bid level). -/
def bestBid (ob : Snapshot) : ℚ := (ob.bids.headD ⟨0, 0⟩).price

/-- Best ask price of a snapshot (first ask level). -/
def bestAsk (ob : Snapshot) : ℚ := (ob.asks.headD ⟨0, 0⟩).price

/-- Mid price of a snapshot. -/
def midPrice (ob : Snapshot) : ℚ := (bestBid ob + bestAsk ob) / 2

/-- spread_bps = (best_ask - best_bid) / best_bid * 10000. -/
def spreadBps (ob : Snapshot) : ℚ := (bestAsk ob - bestBid ob) / bestBid ob * 10000

/-- Cumulative bid volume within the band: every bid level whose price is
at least mid * (1 - frac) contributes its size (frac = pct / 100). -/
def bidDepth (bids : List Level) (mid frac : ℚ) : ℚ :=
  ((bids.filter fun b => mid * (1 - frac) ≤ b.price).map Level.size).sum

/-- Cumulative ask volume within the band: every ask level whose price is
at most mid * (1 + frac) contributes its size. -/
def askDepth (asks : List Level) (mid frac : ℚ) : ℚ :=
  ((asks.filter fun a => a.price ≤ mid * (1 + frac)).map Level.size).sum

/-- The four band fractions of the source: 0.1, 0.5, 1 and 2 percent. -/
def bandFracs : List ℚ := [1 / 1000, 1 / 200, 1 / 100, 1 / 50]

/-- Per-snapshot contribution to the liquidity window statistics. -/
structure SnapContrib where
  spread : ℚ
  imb : Option ℚ
  depths : List (ℚ × ℚ)
  deriving DecidableEq, Repr

/-- What one snapshot adds inside the liquidity loop: nothing when either
side is empty, otherwise its spread, its imbalance when the top-20 volume
is positive, and its per-band depth pair. -/
def snapContrib (ob : Snapshot) : Option SnapContrib :=
  match ob.bids, ob.asks with
  | [], _ => none
  | _ :: _, [] => none
  | _ :: _, _ :: _ =>
    let tb := ((ob.bids.take 20).map Level.size).sum
    let ta := ((ob.asks.take 20).map Level.size).sum
    some { spread := spreadBps ob
           imb := if 0 < tb + ta then some ((tb - ta) / (tb + ta)) else none
           depths := bandFracs.map fun f =>
             (bidDepth ob.bids (midPrice ob) f, askDepth ob.asks (midPrice ob) f) }

/-- The three accumulating statistics of the liquidity loop, in the
order the source appends them (most recent snapshot first). -/
structure WindowAccum where
  spreads : List ℚ
  imbalances : List ℚ
  bandDepths : List (List ℚ × List ℚ)
  deriving DecidableEq, Repr

/-- Empty accumulators, one depth pair per band. -/
def emptyAccum : WindowAccum := ⟨[], [], bandFracs.map fun _ => ([], [])⟩

/-- The snapshot loop of LiquidityProfiler.calculate_liquidity_metrics. -/
def windowStats : List Snapshot → WindowAccum
  | [] => emptyAccum
  | ob :: rest =>
    let w := windowStats rest
    match snapContrib ob with
    | none => w
    | some c =>
      { spreads := c.spread :: w.spreads
        imbalances := match c.imb with
          | some i => i :: w.imbalances
          | none => w.imbalances
        bandDepths := List.zipWith (fun d p => (d.1 :: p.1, d.2 :: p.2)) c.depths w.bandDepths }

/-- The summary record of calculate_liquidity_metrics (variance stands for
the square of the stored np.std value). -/
structure LiquidityMetrics where
  avg_spread_bps : ℚ
  spread_variance : ℚ
  bid_depth_means : List ℚ
  ask_depth_means : List ℚ
  imbalance_mean : ℚ
  imbalance_variance : ℚ
  imbalance_current : ℚ
  liquidity_score : ℕ
  deriving DecidableEq, Repr

/-- The summary step of calculate_liquidity_metrics, applied to the loop
accumulators.  When the window yielded no imbalance sample, the source's
order_book_imbalance field is still the initial Python list and the score
step calls .get on it, raising AttributeError; that failure is the error
branch here.  The spread-volatility check std < 5 is embedded as
variance < 25 (np.std is the nonnegative square root of the variance). -/
def metricsOfAccum (w : WindowAccum) : Except String LiquidityMetrics :=
  let avgS := if w.spreads = [] then 0 else avgOf w.spreads
  let varS := if w.spreads = [] then 0 else varOf w.spreads
  match w.imbalances with
  | [] => Except.error "AttributeError: list object has no attribute get"
  | i0 :: rest =>
    let imbs := i0 :: rest
    let im := avgOf imbs
    let depth1 := avgOf (w.bandDepths.getD 2 ([], [])).1
    let sc0 := 0
    let sc1 := if avgS < 10 then sc0 + 30 else sc0
    let sc2 := if varS < 25 then sc1 + 20 else sc1
    let sc3 := if 10 < depth1 then sc2 + 25 else sc2
    let sc4 := if |im| < 1 / 5 then sc3 + 25 else sc3
    Except.ok { avg_spread_bps := avgS
                spread_variance := varS
                bid_depth_means := w.bandDepths.map fun p => avgOf p.1
                ask_depth_means := w.bandDepths.map fun p => avgOf p.2
                imbalance_mean := im
                imbalance_variance := varOf imbs
                imbalance_current := i0
                liquidity_score := sc4 }

/-- LiquidityProfiler.calculate_liquidity_metrics: the snapshot loop
followed by the summary step. -/
def calculate_liquidity_metrics (obs : List Snapshot) : Except String LiquidityMetrics :=
  metricsOfAccum (windowStats obs)

/-- The ten-trade ping-pong scenario of the specification: five buys at
65000 interleaved with five sells at 65010, most recent first. -/
def pingTradesA : List Trade :=
  [⟨10, 65000, 1, "buy"⟩, ⟨9, 65010, 1, "sell"⟩, ⟨8, 65000, 1, "buy"⟩, ⟨7, 65010, 1, "sell"⟩,
   ⟨6, 65000, 1, "buy"⟩, ⟨5, 65010, 1, "sell"⟩, ⟨4, 65000, 1, "buy"⟩, ⟨3, 65010, 1, "sell"⟩,
   ⟨2, 65000, 1, "buy"⟩, ⟨1, 65010, 1, "sell"⟩]

/-- The same ten trades with the sells at 66000 (1.5 percent away). -/
def pingTradesB : List Trade :=
  [⟨10, 65000, 1, "buy"⟩, ⟨9, 66000, 1, "sell"⟩, ⟨8, 65000, 1, "buy"⟩, ⟨7, 66000, 1, "sell"⟩,
   ⟨6, 65000, 1, "buy"⟩, ⟨5, 66000, 1, "sell"⟩, ⟨4, 65000, 1, "buy"⟩, ⟨3, 66000, 1, "sell"⟩,
   ⟨2, 65000, 1, "buy"⟩, ⟨1, 66000, 1, "sell"⟩]

/-- Claim C1: an empty snapshot window yields a pattern report with every
event list empty and mm_probability_score 0, and an empty trade window
yields empty trade-flow lists; but calculate_liquidity_metrics on zero
orderbook rows does not return liquidity_score 0 without an exception: the
order_book_imbalance field is still the initial Python list and the score
step calls .get on it, so the source raises AttributeError (modelled as
the error branch). -/
theorem C1_empty_window :
    (analyze_order_patterns []).lists = emptyLists ∧
    (analyze_order_patterns []).mm_probability_score = 0 ∧
    (analyze_trade_patterns []).ping_pong_trades = [] ∧
    (analyze_trade_patterns []).size_patterns = [] ∧
    calculate_liquidity_metrics [] =
      Except.error "AttributeError: list object has no attribute get" := by
  refine ⟨rfl, rfl, rfl, rfl, ?_⟩
  norm_num [calculate_liquidity_metrics, windowStats, emptyAccum, metricsOfAccum]

/-- Claim C2 counterexample: the snapshot with best bid 100 and best ask
90 is crossed (best_bid ≥ best_ask), yet it is not excluded: its spread of
-1000 bps enters the spread statistics, so a negative spread_bps reaches
the aggregation. -/
theorem C2_counterexample :
    bestAsk ⟨0, [⟨100, 1⟩], [⟨90, 1⟩]⟩ ≤ bestBid ⟨0, [⟨100, 1⟩], [⟨90, 1⟩]⟩ ∧
    (windowStats [⟨0, [⟨100, 1⟩], [⟨90, 1⟩]⟩]).spreads = [-1000] ∧
    ¬ (0 ≤ (-1000 : ℚ)) := by
  refine ⟨by norm_num [bestAsk, bestBid], ?_, by norm_num⟩
  simp [windowStats, snapContrib, emptyAccum, spreadBps, bestBid, bestAsk]
  norm_num

/-- Claim C4: with exactly ten trades (five buys averaging 65000, five
sells averaging 65010) the source's loop range(len(trades) - 10) is empty,
so zero ping_pong events are emitted even though the one ten-trade window
passes the source's own ping-pong test (more than 3 buys, more than 3
sells, price gap under 0.1 percent); with the sells at 66000 the window
fails the test and zero events are emitted as well. -/
theorem C4_ping_pong :
    (analyze_trade_patterns pingTradesA).ping_pong_trades = [] ∧
    pingWindow pingTradesA = some ⟨10, 65000, 65010, 10⟩ ∧
    (analyze_trade_patterns pingTradesB).ping_pong_trades = [] ∧
    pingWindow pingTradesB = none := by
  refine ⟨rfl, ?_, rfl, ?_⟩
  · simp [pingWindow, pingTradesA, buysOf, sellsOf, avgOf]
    norm_num
  · simp [pingWindow, pingTradesB, buysOf, sellsOf, avgOf]
    norm_num

/-- Claim C6 counterexample: the non-crossed snapshot with bids [(100,1)]
and asks [(101,1), (300,2)] has mid 100.5, so the 100 percent ask band
keeps only prices up to 201: the ask level at 300 is outside it, and the
full-band ask depth is 1 while the total ask size is 3. -/
theorem C6_counterexample :
    bestBid ⟨0, [⟨100, 1⟩], [⟨101, 1⟩, ⟨300, 2⟩]⟩ <
      bestAsk ⟨0, [⟨100, 1⟩], [⟨101, 1⟩, ⟨300, 2⟩]⟩ ∧
    askDepth [⟨101, 1⟩, ⟨300, 2⟩] (midPrice ⟨0, [⟨100, 1⟩], [⟨101, 1⟩, ⟨300, 2⟩]⟩)
      (100 / 100) = 1 ∧
    (([⟨101, 1⟩, ⟨300, 2⟩] : List Level).map Level.size).sum = 3 := by
  refine ⟨by norm_num [bestBid, bestAsk], ?_, by norm_num⟩
  simp [askDepth, midPrice, bestBid, bestAsk]
  norm_num

/-- Quantization of a size to 4 decimal places, following the spec's words
for the symmetric-order tolerance (the fixed decimal precision the spec
documents; 4 places is the precision the spec fixes for trade sizes). -/
def quantizeSizeSpec (x : ℚ) : ℚ := ((round (x * 10000) : ℤ) : ℚ) / 10000

/-- Claim C7 counterexample: bid size 2.50001 and ask size 2.50002 agree
after quantization to 4 decimal places, yet the source matches sizes by
exact equality (dict keys), so no symmetric event is emitted. -/
theorem C7_counterexample :
    quantizeSizeSpec (250001 / 100000) = quantizeSizeSpec (250002 / 100000) ∧
    symmetric_orders_of [⟨64990, 250001 / 100000⟩] [⟨65010, 250002 / 100000⟩] = [] := by
  constructor
  · norm_num [quantizeSizeSpec, round_eq]
  · simp [symmetric_orders_of, buildVolDict, dinsert, lookupD]
    norm_num

/-- The composite score formula as the specification states it: weighted
0/1 indicators over the event-list counts, clamped to the interval
[0, 100] (stated over the integers so the clamp is meaningful). -/
def mm_score_formula (r s w c p : ℕ) : ℤ :=
  max 0 (min 100 (20 * (if 5 < r then 1 else 0) + 30 * (if 3 < s then 1 else 0) +
    15 * (if 0 < w then 1 else 0) + 20 * (if 10 < c then 1 else 0) +
    15 * (if 5 < p then 1 else 0)))

/-- The sequential capped score of the source coincides with the
specification's clamped indicator formula on any aggregated lists. -/
theorem calc_score_eq (a : PatternLists) :
    ((calculate_mm_score a : ℕ) : ℤ) =
      mm_score_formula a.round_number_orders.length a.symmetric_orders.length
        a.order_walls.length a.rapid_changes.length a.persistent_levels.length := by
  simp only [calculate_mm_score, mm_score_formula]
  split_ifs <;> decide

/-- Claim C3: for every pattern-analysis result, the composite MM score
equals 20 [round_number_count over 5] + 30 [symmetric_count over 3] +
15 [wall_count over 0] + 20 [rapid_change_count over 10] +
15 [persistent_level_count over 5], clamped to [0, 100], with 0/1
indicators over the event-list lengths. -/
theorem C3_mm_score (snaps : List Snapshot) :
    ((analyze_order_patterns snaps).mm_probability_score : ℤ) =
      mm_score_formula (analyze_order_patterns snaps).lists.round_number_orders.length
        (analyze_order_patterns snaps).lists.symmetric_orders.length
        (analyze_order_patterns snaps).lists.order_walls.length
        (analyze_order_patterns snaps).lists.rapid_changes.length
        (analyze_order_patterns snaps).lists.persistent_levels.length :=
  calc_score_eq ((snaps.zip snaps.tail).foldl stepPair emptyLists)

/-- No loop iteration ever extends the spoofing_candidates or
persistent_levels lists: each per-snapshot analysis carries them empty. -/
theorem foldl_step_never_appends (l : List (Snapshot × Snapshot)) (acc : PatternLists) :
    (l.foldl stepPair acc).persistent_levels = acc.persistent_levels ∧
    (l.foldl stepPair acc).spoofing_candidates = acc.spoofing_candidates := by
  induction l generalizing acc with
  | nil => exact ⟨rfl, rfl⟩
  | cons cp t ih =>
    have h := ih (stepPair acc cp)
    simpa [stepPair, analyze_single_snapshot] using h

/-- With no persistent-level events the capped sum never exceeds 85. -/
theorem score_le_of_persistent_nil (a : PatternLists)
    (h : a.persistent_levels = []) : calculate_mm_score a ≤ 85 := by
  simp only [calculate_mm_score, h, List.length_nil]
  split_ifs <;> omega

/-- Claim C9: for every input window, persistent_levels and
spoofing_candidates are empty (no code path appends to them), so the
persistent-level score term never fires and mm_probability_score is at
most 85. -/
theorem C9_never_populated (snaps : List Snapshot) :
    (analyze_order_patterns snaps).lists.persistent_levels = [] ∧
    (analyze_order_patterns snaps).lists.spoofing_candidates = [] ∧
    (analyze_order_patterns snaps).mm_probability_score ≤ 85 := by
  obtain ⟨hp, hs⟩ := foldl_step_never_appends (snaps.zip snaps.tail) emptyLists
  exact ⟨hp, hs, score_le_of_persistent_nil _ hp⟩

/-- Claim C10: a snapshot whose bid list or ask list is empty is skipped
entirely by the liquidity loop — the accumulated spread, imbalance and
depth statistics over any window equal those over the window with such
snapshots removed, and therefore the whole metrics computation agrees;
level access only happens behind the nonempty guard. -/
theorem C10_empty_side_skipped (obs : List Snapshot) :
    windowStats obs =
      windowStats (obs.filter fun ob => !ob.bids.isEmpty && !ob.asks.isEmpty) ∧
    calculate_liquidity_metrics obs =
      calculate_liquidity_metrics (obs.filter fun ob => !ob.bids.isEmpty && !ob.asks.isEmpty) := by
  have h : windowStats obs =
      windowStats (obs.filter fun ob => !ob.bids.isEmpty && !ob.asks.isEmpty) := by
    induction obs with
    | nil => rfl
    | cons ob rest ih =>
      rcases hb : ob.bids with _ | ⟨b0, bt⟩
      · simpa [windowStats, snapContrib, List.filter_cons, hb] using ih
      · rcases ha : ob.asks with _ | ⟨a0, at'⟩
        · simpa [windowStats, snapContrib, List.filter_cons, hb, ha] using ih
        · simp [windowStats, snapContrib, List.filter_cons, hb, ha, ih]
  exact ⟨h, by unfold calculate_liquidity_metrics; rw [h]⟩

/-- Claim C2 amended: the liquidity stage excludes only snapshots with an
empty bid or ask list; a snapshot with both sides nonempty always
contributes its spread_bps, and that value is nonnegative exactly when
the snapshot is not crossed (best_bid ≤ best_ask, with best_bid > 0). -/
theorem C2_amended (ob : Snapshot) (hb : ob.bids ≠ []) (ha : ob.asks ≠ [])
    (hpos : 0 < bestBid ob) :
    (windowStats [ob]).spreads = [spreadBps ob] ∧
    (0 ≤ spreadBps ob ↔ bestBid ob ≤ bestAsk ob) := by
  obtain ⟨b0, bt, hbe⟩ := List.exists_cons_of_ne_nil hb
  obtain ⟨a0, at', hae⟩ := List.exists_cons_of_ne_nil ha
  constructor
  · simp [windowStats, snapContrib, hbe, hae, emptyAccum]
  · unfold spreadBps
    rw [mul_nonneg_iff_of_pos_right (by norm_num : (0 : ℚ) < 10000), div_nonneg_iff]
    constructor
    · rintro (⟨h1, h2⟩ | ⟨h1, h2⟩) <;> linarith
    · intro h
      exact Or.inl ⟨by linarith, le_of_lt hpos⟩

/-- Claim C2 amended, witness at a concrete non-crossed snapshot. -/
theorem C2_amended_witness :
    (windowStats [⟨0, [⟨100, 1⟩], [⟨101, 1⟩]⟩]).spreads =
      [spreadBps ⟨0, [⟨100, 1⟩], [⟨101, 1⟩]⟩] ∧
    (0 ≤ spreadBps ⟨0, [⟨100, 1⟩], [⟨101, 1⟩]⟩ ↔
      bestBid ⟨0, [⟨100, 1⟩], [⟨101, 1⟩]⟩ ≤ bestAsk ⟨0, [⟨100, 1⟩], [⟨101, 1⟩]⟩) :=
  C2_amended ⟨0, [⟨100, 1⟩], [⟨101, 1⟩]⟩ (by simp) (by simp) (by norm_num [bestBid])

/-- Summing nonnegative sizes over a filter is monotone in the filter:
a pointwise-weaker predicate keeps at least as much volume. -/
theorem sum_filter_mono (l : List Level) (p q : Level → Bool)
    (hnn : ∀ x ∈ l, 0 ≤ x.size) (himp : ∀ x, p x = true → q x = true) :
    ((l.filter p).map Level.size).sum ≤ ((l.filter q).map Level.size).sum := by
  induction l with
  | nil => simp
  | cons a t ih =>
    have hnt : ∀ x ∈ t, 0 ≤ x.size := fun x hx => hnn x (List.mem_cons_of_mem a hx)
    have iht := ih hnt
    have hna : 0 ≤ a.size := hnn a (List.mem_cons_self a t)
    cases hpa : p a
    · cases hqa : q a
      · simpa [List.filter_cons, hpa, hqa] using iht
      · simp only [List.filter_cons, hpa, hqa, Bool.false_eq_true, if_false, if_true,
          List.map_cons, List.sum_cons]
        linarith
    · have hqa := himp a hpa
      simp only [List.filter_cons, hpa, hqa, if_true, List.map_cons, List.sum_cons]
      linarith

/-- Claim C5: for every non-crossed snapshot (positive best bid below the
best ask, nonnegative level sizes) and band percentages p1 < p2, the
cumulative bid and ask depths at band p1 are at most those at band p2. -/
theorem C5_depth_monotone (ob : Snapshot) (p1 p2 : ℚ)
    (hcross : bestBid ob < bestAsk ob) (hpos : 0 < bestBid ob) (hp : p1 < p2)
    (hbs : ∀ l ∈ ob.bids, 0 ≤ l.size) (has' : ∀ l ∈ ob.asks, 0 ≤ l.size) :
    bidDepth ob.bids (midPrice ob) (p1 / 100) ≤ bidDepth ob.bids (midPrice ob) (p2 / 100) ∧
    askDepth ob.asks (midPrice ob) (p1 / 100) ≤ askDepth ob.asks (midPrice ob) (p2 / 100) := by
  have hmid : 0 ≤ midPrice ob := by
    unfold midPrice
    linarith
  constructor
  · unfold bidDepth
    apply sum_filter_mono _ _ _ hbs
    intro x hx
    simp only [decide_eq_true_eq] at hx ⊢
    have hth : midPrice ob * (1 - p2 / 100) ≤ midPrice ob * (1 - p1 / 100) :=
      mul_le_mul_of_nonneg_left (by linarith) hmid
    linarith
  · unfold askDepth
    apply sum_filter_mono _ _ _ has'
    intro x hx
    simp only [decide_eq_true_eq] at hx ⊢
    have hth : midPrice ob * (1 + p1 / 100) ≤ midPrice ob * (1 + p2 / 100) :=
      mul_le_mul_of_nonneg_left (by linarith) hmid
    linarith

/-- Claim C5, witness at a concrete non-crossed snapshot with bands 1
percent and 2 percent. -/
theorem C5_witness :
    bidDepth (Snapshot.bids ⟨0, [⟨100, 1⟩], [⟨102, 2⟩]⟩)
        (midPrice ⟨0, [⟨100, 1⟩], [⟨102, 2⟩]⟩) (1 / 100) ≤
      bidDepth (Snapshot.bids ⟨0, [⟨100, 1⟩], [⟨102, 2⟩]⟩)
        (midPrice ⟨0, [⟨100, 1⟩], [⟨102, 2⟩]⟩) (2 / 100) ∧
    askDepth (Snapshot.asks ⟨0, [⟨100, 1⟩], [⟨102, 2⟩]⟩)
        (midPrice ⟨0, [⟨100, 1⟩], [⟨102, 2⟩]⟩) (1 / 100) ≤
      askDepth (Snapshot.asks ⟨0, [⟨100, 1⟩], [⟨102, 2⟩]⟩)
        (midPrice ⟨0, [⟨100, 1⟩], [⟨102, 2⟩]⟩) (2 / 100) :=
  C5_depth_monotone ⟨0, [⟨100, 1⟩], [⟨102, 2⟩]⟩ 1 2 (by norm_num [bestBid, bestAsk])
    (by norm_num [bestBid]) (by norm_num)
    (by intro l hl; rcases List.mem_singleton.mp hl with rfl; norm_num)
    (by intro l hl; rcases List.mem_singleton.mp hl with rfl; norm_num)

/-- Claim C6 amended: at band percentage 100, bid depth equals the total
bid size whenever all bid prices are nonnegative, and ask depth equals the
total ask size only under the additional condition that every ask price is
at most twice the mid-price (the 100 percent ask threshold); ask levels
above that threshold are excluded, as the counterexample shows. -/
theorem C6_amended (ob : Snapshot)
    (hbp : ∀ l ∈ ob.bids, 0 ≤ l.price)
    (hap : ∀ l ∈ ob.asks, l.price ≤ 2 * midPrice ob) :
    bidDepth ob.bids (midPrice ob) (100 / 100) = (ob.bids.map Level.size).sum ∧
    askDepth ob.asks (midPrice ob) (100 / 100) = (ob.asks.map Level.size).sum := by
  constructor
  · unfold bidDepth
    have hf : (ob.bids.filter fun b => midPrice ob * (1 - 100 / 100) ≤ b.price) = ob.bids := by
      apply List.filter_eq_self.mpr
      intro a hma
      simp only [decide_eq_true_eq]
      have h0 : midPrice ob * (1 - 100 / 100) = 0 := by
        rw [show (1 : ℚ) - 100 / 100 = 0 by norm_num, mul_zero]
      rw [h0]
      exact hbp a hma
    rw [hf]
  · unfold askDepth
    have hf : (ob.asks.filter fun a => a.price ≤ midPrice ob * (1 + 100 / 100)) = ob.asks := by
      apply List.filter_eq_self.mpr
      intro a hma
      simp only [decide_eq_true_eq]
      have h2 : midPrice ob * (1 + 100 / 100) = 2 * midPrice ob := by
        rw [show (1 : ℚ) + 100 / 100 = 2 by norm_num, mul_comm]
      rw [h2]
      exact hap a hma
    rw [hf]

/-- Claim C6 amended, witness at a concrete snapshot whose single ask
price lies below twice the mid-price. -/
theorem C6_amended_witness :
    bidDepth (Snapshot.bids ⟨0, [⟨100, 1⟩], [⟨101, 1⟩]⟩)
        (midPrice ⟨0, [⟨100, 1⟩], [⟨101, 1⟩]⟩) (100 / 100) =
      ((Snapshot.bids ⟨0, [⟨100, 1⟩], [⟨101, 1⟩]⟩).map Level.size).sum ∧
    askDepth (Snapshot.asks ⟨0, [⟨100, 1⟩], [⟨101, 1⟩]⟩)
        (midPrice ⟨0, [⟨100, 1⟩], [⟨101, 1⟩]⟩) (100 / 100) =
      ((Snapshot.asks ⟨0, [⟨100, 1⟩], [⟨101, 1⟩]⟩).map Level.size).sum :=
  C6_amended ⟨0, [⟨100, 1⟩], [⟨101, 1⟩]⟩
    (by intro l hl; rcases List.mem_singleton.mp hl with rfl; norm_num)
    (by intro l hl; rcases List.mem_singleton.mp hl with rfl; norm_num [midPrice, bestBid, bestAsk])

/-- Every entry of a dict after an insert either carries the inserted key
or was already present. -/
theorem dinsert_keys (k v : ℚ) (d : List (ℚ × ℚ)) :
    ∀ p ∈ dinsert k v d, p.1 = k ∨ p ∈ d := by
  induction d with
  | nil =>
    intro p hp
    rw [dinsert] at hp
    rcases List.mem_singleton.mp hp with rfl
    exact Or.inl rfl
  | cons q t ih =>
    intro p hp
    rw [dinsert] at hp
    by_cases hq : q.1 = k
    · rw [if_pos hq] at hp
      rcases List.mem_cons.mp hp with rfl | h
      · exact Or.inl rfl
      · exact Or.inr (List.mem_cons_of_mem q h)
    · rw [if_neg hq] at hp
      rcases List.mem_cons.mp hp with rfl | h
      · exact Or.inr (List.mem_cons_self p t)
      · rcases ih p h with h1 | h1
        · exact Or.inl h1
        · exact Or.inr (List.mem_cons_of_mem q h1)

/-- Every key of the accumulated volume dict is the size of some level of
the traversed list (or came from the initial accumulator). -/
theorem foldl_dinsert_keys (L : List Level) (d0 : List (ℚ × ℚ)) :
    ∀ p ∈ L.foldl (fun d l => dinsert l.size l.price d) d0,
      p ∈ d0 ∨ ∃ l ∈ L, p.1 = l.size := by
  induction L generalizing d0 with
  | nil => exact fun p hp => Or.inl hp
  | cons a t ih =>
    intro p hp
    rw [List.foldl_cons] at hp
    rcases ih (dinsert a.size a.price d0) p hp with h | h
    · rcases dinsert_keys a.size a.price d0 p h with h1 | h1
      · exact Or.inr ⟨a, List.mem_cons_self a t, h1⟩
      · exact Or.inl h1
    · obtain ⟨l, hl, he⟩ := h
      exact Or.inr ⟨l, List.mem_cons_of_mem a hl, he⟩

/-- Keys of the volume dict are sizes of the side's top-20 levels. -/
theorem buildVolDict_keys (levels : List Level) (p : ℚ × ℚ)
    (hp : p ∈ buildVolDict levels) : ∃ l ∈ levels.take 20, p.1 = l.size := by
  rw [buildVolDict] at hp
  rcases foldl_dinsert_keys (levels.take 20) [] p hp with h | h
  · cases h
  · exact h

/-- Claim C7 amended: the source matches symmetric orders by exact size
equality, not by quantized size: every emitted symmetric event carries
spread = ask_price - bid_price, and when no top-20 bid size equals any
top-20 ask size exactly, no symmetric event is emitted at all. -/
theorem C7_amended (bids asks : List Level) :
    (∀ e ∈ symmetric_orders_of bids asks, e.spread = e.ask_price - e.bid_price) ∧
    ((∀ b ∈ bids.take 20, ∀ a ∈ asks.take 20, b.size ≠ a.size) →
      symmetric_orders_of bids asks = []) := by
  constructor
  · intro e he
    simp only [symmetric_orders_of, List.mem_filterMap] at he
    obtain ⟨p, hp, hfe⟩ := he
    rcases hlu : lookupD p.1 (buildVolDict asks) with _ | ap <;> rw [hlu] at hfe
    · cases hfe
    · rcases Option.some.inj hfe with rfl
      rfl
  · intro hne
    simp only [symmetric_orders_of]
    apply List.filterMap_eq_nil_iff.mpr
    intro p hp
    obtain ⟨l, hl, hkey⟩ := buildVolDict_keys bids p hp
    have hfind : (buildVolDict asks).find? (fun q => q.1 == p.1) = none := by
      apply List.find?_eq_none.mpr
      intro q hq
      obtain ⟨m, hm, hkey2⟩ := buildVolDict_keys asks q hq
      simp only [beq_iff_eq]
      intro hqe
      exact hne l hl m hm (by rw [← hkey, ← hqe, hkey2])
    have hnone : lookupD p.1 (buildVolDict asks) = none := by
      rw [lookupD, hfind]
      rfl
    rw [hnone]

/-- Claim C7 amended, witness: the event emitted for the exactly-equal
sizes 2.5/2.5 carries spread = ask_price - bid_price (here 20). -/
theorem C7_amended_witness :
    SymEvent.spread ⟨5 / 2, 64990, 65010, 20⟩ =
      SymEvent.ask_price ⟨5 / 2, 64990, 65010, 20⟩ -
        SymEvent.bid_price ⟨5 / 2, 64990, 65010, 20⟩ :=
  (C7_amended [⟨64990, 5 / 2⟩] [⟨65010, 5 / 2⟩]).1 ⟨5 / 2, 64990, 65010, 20⟩
    (by simp [symmetric_orders_of, buildVolDict, dinsert, lookupD]; norm_num)

/-- The side's level list a side tag selects. -/
def levelsOf : Side → List Level → List Level → List Level
  | Side.bid, bids, _ => bids
  | Side.ask, _, asks => asks

/-- Filtering a list with pairwise-distinct prices by a predicate that
holds at a member and forces its price keeps exactly that member. -/
theorem filter_unique_price (l : List Level) (L : Level) (p : Level → Bool)
    (hL : L ∈ l) (huniq : l.Pairwise fun x y => x.price ≠ y.price)
    (hpL : p L = true) (hprice : ∀ x, p x = true → x.price = L.price) :
    l.filter p = [L] := by
  induction l with
  | nil => cases hL
  | cons a t ih =>
    rw [List.pairwise_cons] at huniq
    obtain ⟨hat, hpt⟩ := huniq
    rcases List.mem_cons.mp hL with rfl | hLt
    · rw [List.filter_cons, if_pos hpL]
      have ht : t.filter p = [] := by
        apply List.filter_eq_nil_iff.mpr
        intro x hx hpx
        exact hat x hx (hprice x hpx).symm
      rw [ht]
    · have hpa : p a = false := by
        rcases hb : p a with _ | _
        · rfl
        · exact absurd (hprice a hb) (hat L hLt)
      rw [List.filter_cons, if_neg (by rw [hpa]; simp)]
      exact ih hLt hpt

/-- Filtering wall events for a side other than the one they were built
from yields nothing. -/
theorem walls_side_filter_other (s s' : Side) (hne : s' ≠ s) (avg : ℚ)
    (levels : List Level) (pr : ℚ) :
    ((walls_side s' avg levels).filter fun e => e.side == s && e.price == pr) = [] := by
  apply List.filter_eq_nil_iff.mpr
  intro e he
  rw [walls_side] at he
  rcases List.mem_map.mp he with ⟨l, hl, rfl⟩
  simp [hne]

/-- With average volume 1 and pairwise-distinct prices, filtering the
side's wall events down to a top-20 level of size 6 leaves exactly the one
event for that level, with ratio 6. -/
theorem walls_side_filter_self (s : Side) (levels : List Level) (L : Level)
    (hmem : L ∈ levels.take 20) (hsize : L.size = 6)
    (huniq : (levels.take 20).Pairwise fun x y => x.price ≠ y.price) :
    ((walls_side s 1 levels).filter fun e => e.side == s && e.price == L.price) =
      [⟨s, L.price, 6, 6⟩] := by
  rw [walls_side, List.filter_map, List.filter_filter]
  have hone : (levels.take 20).filter
      (fun a => ((fun e : WallEvent => e.side == s && e.price == L.price) ∘
        fun l => WallEvent.mk s l.price l.size (l.size / 1)) a && decide (1 * 5 < a.size)) =
      [L] := by
    apply filter_unique_price _ _ _ hmem huniq
    · simp [hsize]
      norm_num
    · intro x hx
      simp only [Function.comp_apply, Bool.and_eq_true, beq_iff_eq, decide_eq_true_eq] at hx
      exact hx.1.2
  rw [hone, List.map_cons, List.map_nil, div_one, hsize]

/-- Claim C8: in a snapshot whose top-10 bid plus ask levels have mean
volume 1, any top-20 level of volume 6 on a side with pairwise-distinct
prices produces exactly one order_wall event for that level, and that
event has volume ratio 6 (volume exceeds 5 times the mean). -/
theorem C8_order_wall (bids asks : List Level) (s : Side) (L : Level)
    (hmean : avgOf (top10Vols bids asks) = 1)
    (hmem : L ∈ (levelsOf s bids asks).take 20)
    (hsize : L.size = 6)
    (huniq : ((levelsOf s bids asks).take 20).Pairwise fun x y => x.price ≠ y.price) :
    ((order_walls_of bids asks).filter fun e => e.side == s && e.price == L.price) =
      [⟨s, L.price, 6, 6⟩] := by
  have hwalls : order_walls_of bids asks =
      walls_side Side.bid 1 bids ++ walls_side Side.ask 1 asks := by
    rw [order_walls_of, hmean]
  rw [hwalls, List.filter_append]
  cases s
  · rw [walls_side_filter_self Side.bid bids L hmem hsize huniq,
      walls_side_filter_other Side.bid Side.ask (by simp) 1 asks L.price,
      List.append_nil]
  · rw [walls_side_filter_self Side.ask asks L hmem hsize huniq,
      walls_side_filter_other Side.ask Side.bid (by simp) 1 bids L.price,
      List.nil_append]

/-- Claim C8, witness: six bid levels with volumes 6,0,0,0,0,0 (top-10
mean exactly 1); the volume-6 level yields the single wall event with
ratio 6. -/
theorem C8_witness :
    ((order_walls_of [⟨100, 6⟩, ⟨99, 0⟩, ⟨98, 0⟩, ⟨97, 0⟩, ⟨96, 0⟩, ⟨95, 0⟩] []).filter
        fun e => e.side == Side.bid && e.price == Level.price ⟨100, 6⟩) =
      [⟨Side.bid, Level.price ⟨100, 6⟩, 6, 6⟩] :=
  C8_order_wall [⟨100, 6⟩, ⟨99, 0⟩, ⟨98, 0⟩, ⟨97, 0⟩, ⟨96, 0⟩, ⟨95, 0⟩] [] Side.bid ⟨100, 6⟩
    (by norm_num [avgOf, top10Vols]) (by simp [levelsOf]) rfl
    (by norm_num [levelsOf, List.pairwise_cons])

end MarketAnalytics
